import Mathlib

/-!
Verification development for the paperless-knowledge-graph repository.

The definitions below are a shallow embedding of the program:
* `app/extractor.py` (prompt registry, `EntityExtractor.extract`,
  `EntityExtractor._fallback_extract`) — JSON values are modelled by the
  inductive `PKG.Json`, Python exceptions by `Except String`, and the two
  remote LLM calls by an oracle supplying their outcomes per prompt;
* the query page stream consumer (`handleSubmit` in the frontend query page);
* the graph explorer page state updates (`addNeighbors`, `addNodeFromSearch`,
  `filteredData`);
* the dashboard `handleSync` error mapping;
* the task orchestrator and the entity resolver, which are not part of the
  provided sources and are modelled from the specification.
-/

namespace PKG

/-- JSON values as produced by `json.loads` in the Python backend.
Numbers are modelled as rationals, objects as association lists in
insertion order. -/
inductive Json where
  | null : Json
  | bool (b : Bool) : Json
  | num (q : ℚ) : Json
  | str (s : String) : Json
  | arr (l : List Json) : Json
  | obj (l : List (String × Json)) : Json
  deriving Repr, BEq

/-- Python truthiness of a JSON value (`None`, `False`, `0`, `""`, `[]`,
`{}` are falsy, everything else truthy). -/
def truthy : Json → Bool
  | .null => false
  | .bool b => b
  | .num q => decide (q ≠ 0)
  | .str s => decide (s ≠ "")
  | .arr l => !l.isEmpty
  | .obj l => !l.isEmpty

/-- Python iteration `for x in v`: lists yield their elements, strings yield
their characters as one-character strings, dicts yield their keys; other
values raise `TypeError`. -/
def pyIter : Json → Except String (List Json)
  | .arr l => .ok l
  | .str s => .ok (s.data.map fun c => .str (String.mk [c]))
  | .obj l => .ok (l.map fun p => .str p.1)
  | _ => .error "TypeError: not iterable"

/-- Python `d.get(k, default)`: association-list lookup with a default;
raises (`AttributeError`) when the receiver is not a dict. -/
def Json.pyGet (j : Json) (k : String) (default : Json) : Except String Json :=
  match j with
  | .obj l => .ok ((l.lookup k).getD default)
  | _ => .error "AttributeError: no attribute get"

/-- Lookup of a key in a JSON object (`none` when the value is not an object
or the key is absent). -/
def Json.lookupKey (j : Json) (k : String) : Option Json :=
  match j with
  | .obj l => l.lookup k
  | _ => none

/-- The Python idiom `(result.get(k) or [])` followed by iteration, as used
for the `people`, `organizations` and `dates` keys in
`EntityExtractor._fallback_extract`. -/
def getIterable (result : Json) (k : String) : Except String (List Json) := do
  let v ← result.pyGet k .null
  if truthy v then pyIter v else pure []

/-- Python `s.strip()` on a list of characters: drop whitespace from the
front, then from the back. -/
def stripChars (l : List Char) : List Char :=
  ((l.dropWhile Char.isWhitespace).reverse.dropWhile Char.isWhitespace).reverse

/-- Python `s.strip()` on strings. -/
def pyStrip (s : String) : String := String.mk (stripChars s.data)

/-- One entry of the converted `people` list:
`{"name": name.strip(), "role": "", "confidence": 0.4}`
(kept only when the raw entry is a string with non-empty strip). -/
def convPerson (j : Json) : Option Json :=
  match j with
  | .str s => if pyStrip s ≠ "" then
      some (.obj [("name", .str (pyStrip s)), ("role", .str ""), ("confidence", .num (2/5))])
    else none
  | _ => none

/-- One entry of the converted `organizations` list:
`{"name": name.strip(), "type": "", "confidence": 0.4}`. -/
def convOrg (j : Json) : Option Json :=
  match j with
  | .str s => if pyStrip s ≠ "" then
      some (.obj [("name", .str (pyStrip s)), ("type", .str ""), ("confidence", .num (2/5))])
    else none
  | _ => none

/-- One entry of the converted `dates` list:
`{"date": date_str.strip(), "description": ""}`. -/
def convDate (j : Json) : Option Json :=
  match j with
  | .str s => if pyStrip s ≠ "" then
      some (.obj [("date", .str (pyStrip s)), ("description", .str "")])
    else none
  | _ => none

/-- Conversion of a raw fallback LLM response to the generic payload format,
as in the body of `EntityExtractor._fallback_extract`: the converted dict is
built with `summary = result.get("summary", "")`,
`confidence = result.get("confidence", 0.3)`, `fallback_extraction = True`,
and the three loops append trimmed entries for raw entries that are
non-empty strings.  Any Python exception raised here (e.g. a non-dict
result or a non-iterable list value) is propagated as `.error` and caught
by the enclosing `try` of `_fallback_extract`. -/
def fallbackConvert (result : Json) : Except String Json := do
  let summary ← result.pyGet "summary" (.str "")
  let conf ← result.pyGet "confidence" (.num (3/10))
  let peopleRaw ← getIterable result "people"
  let orgsRaw ← getIterable result "organizations"
  let datesRaw ← getIterable result "dates"
  pure (.obj
    [ ("people", .arr (peopleRaw.filterMap convPerson)),
      ("organizations", .arr (orgsRaw.filterMap convOrg)),
      ("dates", .arr (datesRaw.filterMap convDate)),
      ("summary", summary),
      ("confidence", conf),
      ("fallback_extraction", .bool true) ])

/-- The fixed entity-type enumeration appearing in every template's
`implied_relationships` schema. -/
def ENTITY_TYPES : String := "Person/Organization/Location/System/Product/Document/Event"

/-- The `implied_relationships` part of every extraction schema, shared
verbatim by all templates except for the example relationship label.
Literal braces of the rendered prompt (written `\x7b\x7b` / `\x7d\x7d` in the
Python format template) appear here as single braces. -/
def IMPLIED_REL_BLOCK (rel : String) : String :=
  "  " ++ "\"implied_relationships\"" ++ ": [\n    \x7b\n      " ++
  "\"from_entity\"" ++ ": \"entity name\",\n      " ++
  "\"from_type\"" ++ ": \"" ++ ENTITY_TYPES ++ "\",\n      " ++
  "\"to_entity\"" ++ ": \"entity name\",\n      " ++
  "\"to_type\"" ++ ": \"" ++ ENTITY_TYPES ++ "\",\n      " ++
  "\"relationship\"" ++ ": \"" ++ rel ++ "\",\n      " ++
  "\"confidence\": 0.8" ++ "\n    \x7d\n  ]"

/-- Body of the `medical_lab` template (everything before the
`Document title:` line), after Python `.format` brace unescaping. -/
def MEDICAL_LAB_BODY : String :=
  "Extract structured information from this medical lab document. Return a JSON object with:\n\x7b\n  \"provider\": \"name of lab/healthcare provider\",\n  \"patient_name\": \"patient full name\",\n  \"date\": \"date of results (YYYY-MM-DD if possible)\",\n  \"tests\": [\n    \x7b\n      \"name\": \"test name\",\n      \"value\": \"result value\",\n      \"unit\": \"unit of measurement\",\n      \"reference_range\": \"normal range\",\n      \"flag\": \"H/L/normal or null\",\n      \"confidence\": 0.95\n    \x7d\n  ],\n  \"diagnoses\": [\"list of diagnoses if mentioned\"],\n  \"ordering_physician\": \"physician name if mentioned\",\n" ++
  "  " ++ "\"confidence\": 0.9" ++ ",\n" ++
  IMPLIED_REL_BLOCK "PATIENT_OF/WORKS_AT/etc" ++
  "\n\x7d\n\nAlso extract IMPLIED relationships — if a document is FROM an organization TO a person, that implies a relationship even if not explicitly stated. For example, a lab report from Quest Diagnostics for a patient implies a PATIENT_OF relationship.\n\nExtract all information present. Use null for missing fields. Be thorough with test results.\nInclude a confidence score (0.0-1.0) for the overall extraction and for each test result.\n\n"

/-- Body of the `financial_invoice` template. -/
def FINANCIAL_INVOICE_BODY : String :=
  "Extract structured information from this financial/invoice document. Return a JSON object with:\n\x7b\n  \"vendor\": \"vendor/company name\",\n  \"invoice_number\": \"invoice or receipt number\",\n  \"date\": \"invoice date (YYYY-MM-DD if possible)\",\n  \"due_date\": \"due date if mentioned (YYYY-MM-DD if possible)\",\n  \"total_amount\": \"total amount as number\",\n  \"currency\": \"currency code (USD, EUR, etc.)\",\n  \"line_items\": [\n    \x7b\n      \"description\": \"item description\",\n      \"amount\": \"item amount as number\"\n    \x7d\n  ],\n  \"payment_status\": \"paid/unpaid/partial if mentioned\",\n" ++
  "  " ++ "\"confidence\": 0.9" ++ ",\n" ++
  IMPLIED_REL_BLOCK "CUSTOMER_OF/VENDOR_FOR/etc" ++
  "\n\x7d\n\nAlso extract IMPLIED relationships — if an invoice is FROM a company TO a person, that implies a CUSTOMER_OF relationship.\n\nExtract all information present. Use null for missing fields. Include a confidence score (0.0-1.0).\n\n"

/-- Body of the `legal_contract` template. -/
def LEGAL_CONTRACT_BODY : String :=
  "Extract structured information from this legal/contract document. Return a JSON object with:\n\x7b\n  \"parties\": [\n    \x7b\n      \"name\": \"party name\",\n      \"role\": \"role in contract (e.g., buyer, seller, licensor)\"\n    \x7d\n  ],\n  \"contract_type\": \"type of contract\",\n  \"effective_date\": \"start date (YYYY-MM-DD if possible)\",\n  \"expiration_date\": \"end date if mentioned (YYYY-MM-DD if possible)\",\n  \"terms_summary\": \"brief summary of key terms\",\n  \"obligations\": [\n    \x7b\n      \"party\": \"party name\",\n      \"obligation\": \"description of obligation\"\n    \x7d\n  ],\n  \"renewal_info\": \"renewal terms if mentioned\",\n" ++
  "  " ++ "\"confidence\": 0.9" ++ ",\n" ++
  IMPLIED_REL_BLOCK "CONTRACTED_WITH/EMPLOYS/etc" ++
  "\n\x7d\n\nAlso extract IMPLIED relationships between parties.\n\nExtract all information present. Use null for missing fields. Include a confidence score (0.0-1.0).\n\n"

/-- Body of the `insurance` template. -/
def INSURANCE_BODY : String :=
  "Extract structured information from this insurance document. Return a JSON object with:\n\x7b\n  \"provider\": \"insurance company name\",\n  \"policy_number\": \"policy number\",\n  \"policyholder\": \"policyholder name\",\n  \"coverage_type\": \"type of coverage (health, auto, home, life, etc.)\",\n  \"premium\": \"premium amount as number\",\n  \"effective_date\": \"start date (YYYY-MM-DD if possible)\",\n  \"expiration_date\": \"end date (YYYY-MM-DD if possible)\",\n  \"covered_items\": [\"list of covered items or categories\"],\n" ++
  "  " ++ "\"confidence\": 0.9" ++ ",\n" ++
  IMPLIED_REL_BLOCK "INSURED_BY/POLICYHOLDER_OF/etc" ++
  "\n\x7d\n\nAlso extract IMPLIED relationships — the policyholder has a relationship with the insurance provider.\n\nExtract all information present. Use null for missing fields. Include a confidence score (0.0-1.0).\n\n"

/-- Body of the `government_tax` template. -/
def GOVERNMENT_TAX_BODY : String :=
  "Extract structured information from this tax/government document. Return a JSON object with:\n\x7b\n  \"form_type\": \"form type (W-2, 1099, 1040, etc.)\",\n  \"tax_year\": \"tax year\",\n  \"filer_name\": \"name of the filer\",\n  \"filing_status\": \"filing status if mentioned\",\n  \"total_income\": \"total income as number\",\n  \"tax_owed\": \"tax owed as number\",\n  \"tax_paid\": \"tax paid as number\",\n  \"preparer\": \"tax preparer name if mentioned\",\n" ++
  "  " ++ "\"confidence\": 0.9" ++ ",\n" ++
  IMPLIED_REL_BLOCK "EMPLOYED_BY/PREPARED_BY/etc" ++
  "\n\x7d\n\nAlso extract IMPLIED relationships — e.g., a W-2 implies employment relationship.\n\nExtract all information present. Use null for missing fields. Include a confidence score (0.0-1.0).\n\n"

/-- Body of the `property_home` template. -/
def PROPERTY_HOME_BODY : String :=
  "Extract structured information from this property/home document. Return a JSON object with:\n\x7b\n  \"property_address\": \"full property address\",\n  \"parties\": [\n    \x7b\n      \"name\": \"party name\",\n      \"role\": \"role (buyer, seller, owner, inspector, etc.)\"\n    \x7d\n  ],\n  \"document_type\": \"specific type (deed, inspection, mortgage, etc.)\",\n  \"date\": \"document date (YYYY-MM-DD if possible)\",\n  \"amount\": \"monetary amount if applicable as number\",\n  \"description\": \"brief description of the document purpose\",\n" ++
  "  " ++ "\"confidence\": 0.9" ++ ",\n" ++
  IMPLIED_REL_BLOCK "OWNS/MORTGAGE_WITH/etc" ++
  "\n\x7d\n\nAlso extract IMPLIED relationships between parties.\n\nExtract all information present. Use null for missing fields. Include a confidence score (0.0-1.0).\n\n"

/-- Body of `GENERIC_PROMPT`, the default template for unknown types. -/
def GENERIC_BODY : String :=
  "Extract structured information from this document. Return a JSON object with:\n\x7b\n  \"people\": [\n    \x7b\n      \"name\": \"person\x27s full name\",\n      \"role\": \"their role or relationship to the document\",\n      \"confidence\": 0.9\n    \x7d\n  ],\n  \"organizations\": [\n    \x7b\n      \"name\": \"organization name\",\n      \"type\": \"type of organization\",\n      \"confidence\": 0.9\n    \x7d\n  ],\n  \"dates\": [\n    \x7b\n      \"date\": \"date value (YYYY-MM-DD if possible)\",\n      \"description\": \"what this date represents\"\n    \x7d\n  ],\n  \"key_facts\": [\"list of key facts or data points\"],\n  \"summary\": \"brief summary of the document\",\n" ++
  "  " ++ "\"confidence\": 0.9" ++ ",\n" ++
  IMPLIED_REL_BLOCK "relationship type" ++
  "\n\x7d\n\nAlso extract IMPLIED relationships — if the document is FROM an organization TO a person, or mentions entities in context that implies a relationship, include it.\n\nExtract all information present. Use null for missing fields. Be thorough.\nInclude a confidence score (0.0-1.0) for each entity and the overall extraction.\n\n"

/-- Body of `FALLBACK_PROMPT`, the simplified schema-light prompt used by
`_fallback_extract`. -/
def FALLBACK_BODY : String :=
  "This document may be difficult to parse. Extract whatever basic information you can find.\nReturn a JSON object with:\n\x7b\n  \"document_type\": \"best guess at what type of document this is\",\n  \"people\": [\"list of any person names mentioned\"],\n  \"organizations\": [\"list of any organization names mentioned\"],\n  \"dates\": [\"list of any dates mentioned\"],\n  \"summary\": \"one-sentence description of what this document appears to be\",\n  " ++
  "\"confidence\": 0.5" ++
  "\n\x7d\n\nBe forgiving of OCR errors and formatting issues. Extract anything identifiable.\n\n"

/-- The `EXTRACTION_PROMPTS` registry of `app/extractor.py`: an ordered
association list from document category to template body. -/
def EXTRACTION_PROMPTS : List (String × String) :=
  [ ("medical_lab", MEDICAL_LAB_BODY),
    ("financial_invoice", FINANCIAL_INVOICE_BODY),
    ("legal_contract", LEGAL_CONTRACT_BODY),
    ("insurance", INSURANCE_BODY),
    ("government_tax", GOVERNMENT_TAX_BODY),
    ("property_home", PROPERTY_HOME_BODY) ]

/-- Rendering of `template.format(title=title, content=content)`: every
template ends with `Document title: \x7btitle\x7d\nDocument content:\n\x7bcontent\x7d`,
so the rendered prompt is the body followed by the title/content footer. -/
def renderPrompt (body title content : String) : String :=
  body ++ "Document title: " ++ title ++ "\nDocument content:\n" ++ content

/-- Python slicing `s[:n]` on strings (by code points). -/
def pySlice (s : String) (n : Nat) : String := String.mk (s.data.take n)

/-- The content-prefix bound of the primary extraction prompt
(`content[:8000]` in `EntityExtractor.extract`). -/
def PRIMARY_CONTENT_LIMIT : Nat := 8000

/-- The content-prefix bound of the fallback extraction prompt
(`content[:4000]` in `EntityExtractor._fallback_extract`). -/
def FALLBACK_CONTENT_LIMIT : Nat := 4000

/-- Occurrence of `pat` as a contiguous substring of `s`. -/
def strContains (s pat : String) : Prop :=
  ∃ a b : List Char, s.data = a ++ pat.data ++ b

/-- The schema elements every extraction template requests: an overall
`confidence` field (0.9), an `implied_relationships` list, and the six
fields of its entries — `from_entity`, `from_type`, `to_entity`, `to_type`,
`relationship` and a per-entry `confidence` (0.8). -/
def schemaOK (body : String) : Prop :=
  strContains body "\"confidence\": 0.9" ∧
  strContains body "\"implied_relationships\"" ∧
  strContains body "\"from_entity\"" ∧
  strContains body "\"from_type\"" ∧
  strContains body "\"to_entity\"" ∧
  strContains body "\"to_type\"" ∧
  strContains body "\"relationship\"" ∧
  strContains body "\"confidence\": 0.8"

/-- Template selection in `EntityExtractor.extract`:
`EXTRACTION_PROMPTS.get(doc_type, GENERIC_PROMPT)` — dictionary lookup with
the generic template as default. -/
def promptBodyFor (doc_type : String) : String :=
  (EXTRACTION_PROMPTS.lookup doc_type).getD GENERIC_BODY

/-- Outcomes of the two retried LLM-call-plus-JSON-parse operations, per
prompt: `.ok` is a parsed JSON value, `.error` is any exception escaping
`retry_with_backoff` (remote failure after bounded retries, or
`json.loads` failure on a malformed response). -/
structure LLMOutcomes where
  primary : String → Except String Json
  fallback : String → Except String Json

/-- The primary prompt rendered by `EntityExtractor.extract`:
the selected template over the first 8000 characters of content. -/
def primaryPrompt (title content doc_type : String) : String :=
  renderPrompt (promptBodyFor doc_type) title (pySlice content PRIMARY_CONTENT_LIMIT)

/-- The prompt rendered by `EntityExtractor._fallback_extract`:
`FALLBACK_PROMPT` over the first 4000 characters of content. -/
def fallbackPrompt (title content : String) : String :=
  renderPrompt FALLBACK_BODY title (pySlice content FALLBACK_CONTENT_LIMIT)

/-- Shallow embedding of `EntityExtractor._fallback_extract`: run the
retried fallback call, convert the result to the generic format, and on
any exception return the empty dict. -/
def fallback_extract (o : LLMOutcomes) (title content : String) : Json :=
  match o.fallback (fallbackPrompt title content) >>= fallbackConvert with
  | .ok converted => converted
  | .error _ => .obj []

/-- Shallow embedding of `EntityExtractor.extract`: select the template by
lookup-with-default, render it over the truncated content, run the retried
primary call, and on any exception fall back to `_fallback_extract`. -/
def extract (o : LLMOutcomes) (title content doc_type : String) : Json :=
  match o.primary (primaryPrompt title content doc_type) with
  | .ok result => result
  | .error _ => fallback_extract o title content

/-- Python `try: x except: handler` at the `Except` level. -/
def tryCatch (x : Except String Json) (handler : String → Except String Json) :
    Except String Json :=
  match x with
  | .ok v => .ok v
  | .error e => handler e

/-- The `_fallback_extract` method viewed at the exception level: the body
may raise (remote failure, bad JSON, conversion error), the `except` clause
turns any exception into `.ok {}`. -/
def fallback_extractE (o : LLMOutcomes) (title content : String) : Except String Json :=
  tryCatch (o.fallback (fallbackPrompt title content) >>= fallbackConvert)
    (fun _ => .ok (.obj []))

/-- The `extract` method viewed at the exception level: the primary body may
raise, the `except` clause delegates to `_fallback_extract`. -/
def extractE (o : LLMOutcomes) (title content doc_type : String) : Except String Json :=
  tryCatch (o.primary (primaryPrompt title content doc_type))
    (fun _ => fallback_extractE o title content)

/-- Entries of the `people` list of a payload. -/
def peopleEntries (c : Json) : List Json :=
  match c.lookupKey "people" with
  | some (.arr l) => l
  | _ => []

/-- Entries of the `organizations` list of a payload. -/
def orgEntries (c : Json) : List Json :=
  match c.lookupKey "organizations" with
  | some (.arr l) => l
  | _ => []

/-- Entries of the `dates` list of a payload. -/
def dateEntries (c : Json) : List Json :=
  match c.lookupKey "dates" with
  | some (.arr l) => l
  | _ => []

/-- Raw entries that the fallback conversion keeps: strings with a
non-empty strip. -/
def keptString (j : Json) : Bool :=
  match j with
  | .str s => pyStrip s ≠ ""
  | _ => false

/-! ### Entity resolver, modelled from the spec

The resolver (`app/entity_resolver.py`) is not among the provided sources;
the following definitions are modelled from the specification §4.2. -/

/-- Modelled from the spec: an Entity record as seen by the resolver —
stable uuid, type label, name/alias set, embedding (abstract token),
description, confidence, creation time. -/
structure Entity where
  uuid : Nat
  label : String
  names : List String
  emb : Nat
  desc : String
  conf : ℚ
  created : Nat
  deriving Repr, DecidableEq

/-- Modelled from the spec: resolver configuration — a token-order-
insensitive string-similarity score, an embedding cosine-similarity score
(abstracted over embedding tokens), and the two configurable thresholds
(defaults ≈0.85 and ≈0.90). -/
structure ResolverCfg where
  sim : String → String → ℚ
  embSim : Nat → Nat → ℚ
  fuzzyThreshold : ℚ
  embThreshold : ℚ

/-- Maximum of a list of scores (0 when empty). -/
def maxScore (l : List ℚ) : ℚ := l.foldr max 0

/-- Modelled from the spec: the stage-1 fuzzy score between two entities —
the best string similarity over the two name/alias sets. -/
def fuzzyScore (cfg : ResolverCfg) (e1 e2 : Entity) : ℚ :=
  maxScore ((e1.names.product e2.names).map fun p => cfg.sim p.1 p.2)

/-- Modelled from the spec: two entities are provisionally linked when they
share a block (same type label) and either the fuzzy score reaches the
fuzzy threshold (stage 1), or — only on the stage-1 residual — the
embedding similarity reaches the embedding threshold (stage 2). -/
def linked (cfg : ResolverCfg) (e1 e2 : Entity) : Bool :=
  e1.label == e2.label &&
    (decide (cfg.fuzzyThreshold ≤ fuzzyScore cfg e1 e2) ||
      (decide (fuzzyScore cfg e1 e2 < cfg.fuzzyThreshold) &&
        decide (cfg.embThreshold ≤ cfg.embSim e1.emb e2.emb)))

/-- One step of incremental connected-component clustering: clusters
touching the new entity by a link are fused with it, the rest are kept. -/
def addToClusters (link : Entity → Entity → Bool) (e : Entity)
    (cs : List (List Entity)) : List (List Entity) :=
  (e :: (cs.filter fun c => c.any fun x => link e x).flatten) ::
    (cs.filter fun c => !(c.any fun x => link e x))

/-- Modelled from the spec: the connected components of the link relation
(the union-find structure of stage 3) over an entity list. -/
def clustersOf (link : Entity → Entity → Bool) (es : List Entity) :
    List (List Entity) :=
  es.foldr (addToClusters link) []

/-- Modelled from the spec: deterministic canonical preference — richer
description, then higher confidence, then earliest creation time, then
lowest uuid. -/
def preferred (a b : Entity) : Bool :=
  if a.desc.length ≠ b.desc.length then decide (b.desc.length < a.desc.length)
  else if a.conf ≠ b.conf then decide (b.conf < a.conf)
  else if a.created ≠ b.created then decide (a.created < b.created)
  else decide (a.uuid ≤ b.uuid)

/-- The canonical representative of a cluster (none for an empty cluster). -/
def canonicalOf : List Entity → Option Entity
  | [] => none
  | e :: rest => some (rest.foldl (fun acc x => if preferred x acc then x else acc) e)

/-- Modelled from the spec: collapsing a cluster — the canonical entity
absorbs the name/alias sets of all members (union, not overwrite). -/
def mergeCluster (c : List Entity) : Option Entity :=
  (canonicalOf c).map fun canon => { canon with names := (c.map Entity.names).flatten }

/-- Modelled from the spec: one full resolution pass — cluster by the link
relation, collapse each cluster to its canonical entity. -/
def resolve (cfg : ResolverCfg) (es : List Entity) : List Entity :=
  (clustersOf (linked cfg) es).filterMap mergeCluster

/-! ### Task orchestrator, modelled from the spec

The orchestrator (`app/pipeline.py` / the task registry behind `/sync`,
`/reindex`, `/reindex/{doc_id}`, `/resolve-entities`) is not among the
provided sources; the following definitions are modelled from the
specification §4.4.  The dashboard-side handling of a conflict is embedded
from `handleSync` in the frontend `page.tsx` and `apiFetch` in
`frontend/src/lib/api.ts`. -/

/-- Modelled from the spec: the four mutating task kinds. -/
inductive TaskKind where
  | sync
  | reindex
  | singleDoc (docId : Nat)
  | resolveEntities
  deriving Repr, DecidableEq

/-- Modelled from the spec: the task state machine
`pending → running → completed / failed / cancelled`. -/
inductive TaskStatus where
  | pending
  | running
  | completed
  | failed
  | cancelled
  deriving Repr, DecidableEq

/-- Modelled from the spec: a task record with progress counters. -/
structure Task where
  id : Nat
  kind : TaskKind
  status : TaskStatus
  total : Nat
  processed : Nat
  errors : Nat
  deriving Repr, DecidableEq

/-- Modelled from the spec: the in-memory task registry keyed by task id. -/
structure TaskRegistry where
  tasks : List Task
  nextId : Nat
  deriving Repr, DecidableEq

/-- Whether some mutating task is currently `running`. -/
def hasRunningTask (r : TaskRegistry) : Bool :=
  r.tasks.any fun t => t.status == .running

/-- Modelled from the spec: starting a mutating task — at most one may be
`running`; attempting to start a second fails immediately with an HTTP 409
conflict (and is not queued: the registry is returned unchanged), otherwise
a new running task is created. -/
def startTask (r : TaskRegistry) (k : TaskKind) : TaskRegistry × Except Nat Nat :=
  if hasRunningTask r then (r, .error 409)
  else
    ({ tasks := r.tasks ++ [⟨r.nextId, k, .running, 0, 0, 0⟩], nextId := r.nextId + 1 },
      .ok r.nextId)

/-- Boolean substring check (JS `String.includes`). -/
def containsB (s pat : String) : Bool :=
  go pat.data s.data
where
  /-- Check whether `pat` occurs in `l` at some position. -/
  go (pat : List Char) : List Char → Bool
    | [] => pat.isEmpty
    | c :: rest => pat.isPrefixOf (c :: rest) || go pat rest

/-- The error message thrown by `apiFetch` on a non-ok HTTP response:
`API error: ${res.status} ${res.statusText}`. -/
def apiErrorMessage (status : Nat) (statusText : String) : String :=
  "API error: " ++ toString status ++ " " ++ statusText

/-- The toast shown by `handleSync` on the dashboard page for a sync-start
outcome: success toast on ok, and on an error whose message includes
`"409"` the dedicated `A task is already running` toast. -/
def syncToast (outcome : Except String Nat) : String × String :=
  match outcome with
  | .ok _ => ("Sync started successfully", "success")
  | .error msg =>
    if containsB msg "409" then ("A task is already running", "error")
    else (msg, "error")

/-! ### Query page stream consumer (frontend query page, `handleSubmit`) -/

/-- The typed events of the query stream as consumed by the query page. -/
inductive QueryEvent where
  | status (message : String)
  | answerChunk (content : String)
  | complete (sources : List Nat) (cached : Bool) (confidence : Option ℚ)
      (followUps : List String)
  | error (message : String)
  deriving Repr

/-- The assistant message content built by the `catch` branch of
`handleSubmit`: `Sorry, something went wrong.\n\n*Error: ${message}*`. -/
def errorAnswer (msg : String) : String :=
  "Sorry, something went wrong.\n\n*Error: " ++ msg ++ "*"

/-- The event loop of `handleSubmit`: `status` updates the status line,
`answer_chunk` appends to the accumulated answer, `complete` records the
final metadata, and `error` throws — the exception is caught and replaces
the answer with the error template (`event.message || "Stream error"`). -/
def runStream (fullAnswer : String) : List QueryEvent → String
  | [] => fullAnswer
  | .status _ :: rest => runStream fullAnswer rest
  | .answerChunk c :: rest => runStream (fullAnswer ++ c) rest
  | .complete _ _ _ _ :: rest => runStream fullAnswer rest
  | .error m :: _ => errorAnswer (if m = "" then "Stream error" else m)

/-- Concatenation of a list of strings in order. -/
def concatStrings (l : List String) : String := l.foldr (· ++ ·) ""

/-- The contents of the `answer_chunk` events of a stream, in order. -/
def chunkContents (events : List QueryEvent) : List String :=
  events.filterMap fun e =>
    match e with
    | .answerChunk c => some c
    | _ => none

/-- The message of the first `error` event of a stream, if any. -/
def firstError (events : List QueryEvent) : Option String :=
  events.findSome? fun e =>
    match e with
    | .error m => some m
    | _ => none

/-! ### Graph explorer page (frontend graph page) -/

/-- The node properties used by the graph page (absent JS fields are
modelled as the empty string, which is falsy for `||`). -/
structure RawProps where
  uuid : String
  paperless_id : String
  name : String
  title : String
  deriving Repr, DecidableEq

/-- A node as returned by the neighbors endpoint. -/
structure RawNode where
  props : RawProps
  labels : List String
  deriving Repr, DecidableEq

/-- A relationship as returned by the neighbors endpoint (`startId`/`endId`
embed the JS fields `rel.start`/`rel.end`). -/
structure RawRel where
  startId : String
  endId : String
  source_doc : String
  type : String
  deriving Repr, DecidableEq

/-- The payload of the neighbors endpoint. -/
structure NeighborData where
  nodes : List RawNode
  relationships : List RawRel
  deriving Repr, DecidableEq

/-- A rendered graph node (`GNode` in the graph page; the `props` record is
not needed by the claims and is omitted). -/
structure GNode where
  id : String
  name : String
  label : String
  color : String
  val : ℚ
  deriving Repr, DecidableEq

/-- A rendered graph link (`GLink`; at rest `source`/`target` are id
strings — the `typeof l.source === "object"` branch of the page only
handles the in-place mutation performed by the force-graph library). -/
structure GLink where
  source : String
  target : String
  type : String
  deriving Repr, DecidableEq

/-- The graph page state (`graphData`; the `nodeTypes` filter-checkbox set
does not affect nodes or links and is omitted). -/
structure GraphData where
  nodes : List GNode
  links : List GLink
  deriving Repr, DecidableEq

/-- The `NODE_COLORS` map of the graph page. -/
def NODE_COLORS : List (String × String) :=
  [ ("Person", "#3b82f6"),
    ("Organization", "#22c55e"),
    ("Document", "#6b7280"),
    ("MedicalResult", "#ef4444"),
    ("Medical_Result", "#ef4444"),
    ("FinancialItem", "#eab308"),
    ("Financial_Item", "#eab308"),
    ("Address", "#06b6d4"),
    ("Date", "#f97316"),
    ("Account", "#8b5cf6") ]

/-- The `getColor` helper: lookup with the purple default. -/
def getColor (label : String) : String :=
  (NODE_COLORS.lookup label).getD "#a855f7"

/-- JS `a || b` on strings (empty string is falsy). -/
def jsOr (a b : String) : String := if a = "" then b else a

/-- Node id computation of the graph page:
`(p.uuid) || doc-${p.paperless_id} || (p.name)` — the template literal is
always non-empty, so the `p.name` alternative is unreachable. -/
def rawNodeId (p : RawProps) : String :=
  jsOr p.uuid ("doc-" ++ p.paperless_id)

/-- Label selection: `node.labels?.[0] || "Unknown"`. -/
def labelOf (labels : List String) : String :=
  jsOr (labels.headD "") "Unknown"

/-- Construction of a rendered node from raw properties, as in both
`addNeighbors` and `addNodeFromSearch`:
`name: p.name || p.title || id`, `val: label === "Document" ? 2 : 4`. -/
def mkGNode (id : String) (p : RawProps) (label : String) : GNode :=
  { id := id,
    name := jsOr p.name (jsOr p.title id),
    label := label,
    color := getColor label,
    val := if label = "Document" then 2 else 4 }

/-- One step of the node loop of `addNeighbors`: skip a raw node with an
empty or already-present id, otherwise append it and extend the id set. -/
def addNodeStep (acc : List String × List GNode) (node : RawNode) :
    List String × List GNode :=
  let id := rawNodeId node.props
  if id = "" ∨ id ∈ acc.1 then acc
  else (acc.1 ++ [id], acc.2 ++ [mkGNode id node.props (labelOf node.labels)])

/-- The node loop of `addNeighbors`: starting from the existing id set,
fold `addNodeStep` over the fetched nodes. Returns the final id set and
the new nodes. -/
def addNeighborsFold (init : List String) (nodes : List RawNode) :
    List String × List GNode :=
  nodes.foldl addNodeStep (init, [])

/-- Relationship endpoint computation of `addNeighbors`:
`rel.start || doc-${rel.props?.source_doc}` (and the same for `end`). -/
def relEndpoint (s source_doc : String) : String :=
  jsOr s ("doc-" ++ source_doc)

/-- The state update of `addNeighbors`: append the new nodes, and append
exactly the links whose endpoints are truthy and present in the extended
id set. -/
def addNeighborsUpdate (prev : GraphData) (data : NeighborData) : GraphData :=
  let folded := addNeighborsFold (prev.nodes.map GNode.id) data.nodes
  let newLinks := data.relationships.filterMap fun rel =>
    let src := relEndpoint rel.startId rel.source_doc
    let tgt := relEndpoint rel.endId rel.source_doc
    if src ≠ "" ∧ tgt ≠ "" ∧ src ∈ folded.1 ∧ tgt ∈ folded.1 then
      some ⟨src, tgt, rel.type⟩
    else none
  { nodes := prev.nodes ++ folded.2, links := prev.links ++ newLinks }

/-- The state update of `addNodeFromSearch`: compute the id from the search
result, append a node for it unless one with the same id exists, then run
the `addNeighbors` update on the fetched neighbor data. -/
def addNodeFromSearchUpdate (prev : GraphData) (labels : List String)
    (p : RawProps) (data : NeighborData) : GraphData :=
  let id := jsOr p.uuid ("doc-" ++ p.paperless_id)
  if id = "" then prev
  else
    let withNode :=
      if (prev.nodes.find? fun n => n.id == id).isSome then prev
      else { prev with nodes := prev.nodes ++ [mkGNode id p (labelOf labels)] }
    addNeighborsUpdate withNode data

/-- The `filteredData` view of the graph page: nodes whose label is not
hidden, and links both of whose endpoints resolve (by `find` over the full
node list) to a node with a non-hidden label. -/
def filteredData (g : GraphData) (hiddenTypes : List String) : GraphData :=
  { nodes := g.nodes.filter fun n => !(hiddenTypes.contains n.label),
    links := g.links.filter fun l =>
      (g.nodes.find? fun n => n.id == l.source && !(hiddenTypes.contains n.label)).isSome &&
      (g.nodes.find? fun n => n.id == l.target && !(hiddenTypes.contains n.label)).isSome }

/-- The graph-state invariant of the claims: pairwise-distinct node ids,
and every link endpoint is the id of a present node. -/
def GraphInv (g : GraphData) : Prop :=
  (g.nodes.map GNode.id).Nodup ∧
    ∀ l ∈ g.links, l.source ∈ g.nodes.map GNode.id ∧ l.target ∈ g.nodes.map GNode.id

/-! ### Concrete witness inputs -/

/-- A concrete raw fallback response: one good person entry, one numeric
junk entry, one whitespace-only entry, a null `organizations`, one date,
and no `confidence` key. -/
def W10result : Json :=
  .obj
    [ ("people", .arr [.str " Ann Smith ", .num 7, .str "   "]),
      ("organizations", .null),
      ("dates", .arr [.str " 2024-01-15 "]),
      ("summary", .str "a bill") ]

/-- The converted payload for `W10result`. -/
def W10converted : Json :=
  .obj
    [ ("people", .arr
        [.obj [("name", .str "Ann Smith"), ("role", .str ""), ("confidence", .num (2/5))]]),
      ("organizations", .arr []),
      ("dates", .arr [.obj [("date", .str "2024-01-15"), ("description", .str "")]]),
      ("summary", .str "a bill"),
      ("confidence", .num (3/10)),
      ("fallback_extraction", .bool true) ]

/-- A concrete raw fallback response with a self-reported confidence. -/
def W1r : Json :=
  .obj
    [ ("summary", .str "A note"),
      ("confidence", .num (1/2)),
      ("people", .arr [.str " Bob "]) ]

/-- The converted payload for `W1r`. -/
def W1conv : Json :=
  .obj
    [ ("people", .arr
        [.obj [("name", .str "Bob"), ("role", .str ""), ("confidence", .num (2/5))]]),
      ("organizations", .arr []),
      ("dates", .arr []),
      ("summary", .str "A note"),
      ("confidence", .num (1/2)),
      ("fallback_extraction", .bool true) ]

/-- A concrete oracle whose primary call fails and whose fallback call
returns `W1r`. -/
def W1oracle : LLMOutcomes :=
  ⟨fun _ => .error "malformed JSON", fun _ => .ok W1r⟩

/-- A concrete registry with one running sync task. -/
def W7reg : TaskRegistry :=
  { tasks := [⟨1, .sync, .running, 10, 3, 0⟩], nextId := 2 }

/-- A concrete resolver configuration: constant name similarity 1 (every
same-label pair fuzzy-matches), constant embedding similarity 0, and the
default thresholds 0.85 and 0.90. -/
def W6cfg : ResolverCfg :=
  { sim := fun _ _ => 1,
    embSim := fun _ _ => 0,
    fuzzyThreshold := 17/20,
    embThreshold := 9/10 }

/-- Concrete entities: two mergeable persons and one organization. -/
def W6es : List Entity :=
  [ ⟨1, "Person", ["Bob Smith"], 10, "a person", 9/10, 0⟩,
    ⟨2, "Person", ["Smith Bob"], 11, "", 1/2, 1⟩,
    ⟨3, "Organization", ["Acme Corp"], 12, "a company", 8/10, 2⟩ ]

/-- A concrete graph state with one person node. -/
def W9g : GraphData :=
  { nodes := [⟨"u1", "Alice", "Person", "#3b82f6", 4⟩], links := [] }

/-- A concrete neighbors payload: one organization node and one
relationship between the two. -/
def W9data : NeighborData :=
  { nodes := [⟨⟨"u2", "", "Acme Corp", ""⟩, ["Organization"]⟩],
    relationships := [⟨"u1", "u2", "", "CUSTOMER_OF"⟩] }

/-! ## Theorems -/

theorem strContains_refl (pat : String) : strContains pat pat :=
  ⟨[], [], by simp⟩

theorem strContains_left {s pat : String} (h : strContains s pat) (t : String) :
    strContains (s ++ t) pat := by
  obtain ⟨a, b, hab⟩ := h
  exact ⟨a, b ++ t.data, by simp [String.data_append, hab]⟩

theorem strContains_right {s pat : String} (h : strContains s pat) (t : String) :
    strContains (t ++ s) pat := by
  obtain ⟨a, b, hab⟩ := h
  exact ⟨t.data ++ a, b, by simp [String.data_append, hab]⟩

theorem impliedBlock_schema (rel : String) :
    strContains (IMPLIED_REL_BLOCK rel) "\"implied_relationships\"" ∧
    strContains (IMPLIED_REL_BLOCK rel) "\"from_entity\"" ∧
    strContains (IMPLIED_REL_BLOCK rel) "\"from_type\"" ∧
    strContains (IMPLIED_REL_BLOCK rel) "\"to_entity\"" ∧
    strContains (IMPLIED_REL_BLOCK rel) "\"to_type\"" ∧
    strContains (IMPLIED_REL_BLOCK rel) "\"relationship\"" ∧
    strContains (IMPLIED_REL_BLOCK rel) "\"confidence\": 0.8" := by
  unfold IMPLIED_REL_BLOCK
  refine ⟨?_, ?_, ?_, ?_, ?_, ?_, ?_⟩
  · iterate 19 refine strContains_left ?_ _
    exact strContains_right (strContains_refl _) _
  · iterate 17 refine strContains_left ?_ _
    exact strContains_right (strContains_refl _) _
  · iterate 15 refine strContains_left ?_ _
    exact strContains_right (strContains_refl _) _
  · iterate 11 refine strContains_left ?_ _
    exact strContains_right (strContains_refl _) _
  · iterate 9 refine strContains_left ?_ _
    exact strContains_right (strContains_refl _) _
  · iterate 5 refine strContains_left ?_ _
    exact strContains_right (strContains_refl _) _
  · iterate 1 refine strContains_left ?_ _
    exact strContains_right (strContains_refl _) _

theorem schemaOK_shape (pre rel post : String) :
    schemaOK (pre ++ "  " ++ "\"confidence\": 0.9" ++ ",\n" ++
      IMPLIED_REL_BLOCK rel ++ post) := by
  obtain ⟨h1, h2, h3, h4, h5, h6, h7⟩ := impliedBlock_schema rel
  refine ⟨?_, ?_, ?_, ?_, ?_, ?_, ?_, ?_⟩
  · iterate 3 refine strContains_left ?_ _
    exact strContains_right (strContains_refl _) _
  · exact strContains_left (strContains_right h1 _) _
  · exact strContains_left (strContains_right h2 _) _
  · exact strContains_left (strContains_right h3 _) _
  · exact strContains_left (strContains_right h4 _) _
  · exact strContains_left (strContains_right h5 _) _
  · exact strContains_left (strContains_right h6 _) _
  · exact strContains_left (strContains_right h7 _) _

theorem medical_lab_schemaOK : schemaOK MEDICAL_LAB_BODY := by
  unfold MEDICAL_LAB_BODY
  exact schemaOK_shape _ _ _

theorem financial_invoice_schemaOK : schemaOK FINANCIAL_INVOICE_BODY := by
  unfold FINANCIAL_INVOICE_BODY
  exact schemaOK_shape _ _ _

theorem legal_contract_schemaOK : schemaOK LEGAL_CONTRACT_BODY := by
  unfold LEGAL_CONTRACT_BODY
  exact schemaOK_shape _ _ _

theorem insurance_schemaOK : schemaOK INSURANCE_BODY := by
  unfold INSURANCE_BODY
  exact schemaOK_shape _ _ _

theorem government_tax_schemaOK : schemaOK GOVERNMENT_TAX_BODY := by
  unfold GOVERNMENT_TAX_BODY
  exact schemaOK_shape _ _ _

theorem property_home_schemaOK : schemaOK PROPERTY_HOME_BODY := by
  unfold PROPERTY_HOME_BODY
  exact schemaOK_shape _ _ _

theorem generic_schemaOK : schemaOK GENERIC_BODY := by
  unfold GENERIC_BODY
  exact schemaOK_shape _ _ _

/-- C3: every category template of the extraction prompt registry, and the
generic default, requests a fixed JSON schema with a `confidence` field and
an `implied_relationships` list whose entries carry `from_entity`,
`from_type`, `to_entity`, `to_type`, `relationship` and `confidence`. -/
theorem extraction_schemas_request_confidence_and_implied_relationships :
    EXTRACTION_PROMPTS.Forall (fun p => schemaOK p.2) ∧ schemaOK GENERIC_BODY := by
  refine ⟨?_, generic_schemaOK⟩
  simp only [EXTRACTION_PROMPTS, List.forall_cons, List.Forall, and_true]
  exact ⟨medical_lab_schemaOK, financial_invoice_schemaOK, legal_contract_schemaOK,
    insurance_schemaOK, government_tax_schemaOK, property_home_schemaOK⟩

/-- C4: both extraction prompts are rendered over a bounded prefix of the
document content only — re-rendering over the already-truncated content
yields the identical prompt, so content beyond the bound never appears —
and the primary bound (8000 characters) strictly exceeds the fallback
bound (4000 characters). -/
theorem prompts_render_bounded_content_prefix :
    ∀ title content doc_type,
      primaryPrompt title content doc_type =
        primaryPrompt title (pySlice content PRIMARY_CONTENT_LIMIT) doc_type ∧
      fallbackPrompt title content =
        fallbackPrompt title (pySlice content FALLBACK_CONTENT_LIMIT) ∧
      FALLBACK_CONTENT_LIMIT < PRIMARY_CONTENT_LIMIT := by
  intro t c d
  refine ⟨?_, ?_, by norm_num [PRIMARY_CONTENT_LIMIT, FALLBACK_CONTENT_LIMIT]⟩
  · simp [primaryPrompt, pySlice, List.take_take]
  · simp [fallbackPrompt, pySlice, List.take_take]

/-- C5: the extraction prompt is selected by dictionary lookup with the
generic template as default — each registered category maps to its own
template, and any unregistered type tag maps to the generic template. -/
theorem extract_selects_prompt_by_lookup_with_default :
    (∀ dt body, (dt, body) ∈ EXTRACTION_PROMPTS → promptBodyFor dt = body) ∧
    (∀ dt, dt ∉ EXTRACTION_PROMPTS.map Prod.fst → promptBodyFor dt = GENERIC_BODY) := by
  constructor
  · intro dt body h
    simp only [EXTRACTION_PROMPTS, List.mem_cons, List.not_mem_nil, or_false,
      Prod.mk.injEq] at h
    rcases h with ⟨rfl, rfl⟩ | ⟨rfl, rfl⟩ | ⟨rfl, rfl⟩ | ⟨rfl, rfl⟩ | ⟨rfl, rfl⟩ | ⟨rfl, rfl⟩ <;> rfl
  · intro dt h
    simp only [EXTRACTION_PROMPTS, List.map_cons, List.map_nil, List.mem_cons,
      List.not_mem_nil, or_false, not_or] at h
    obtain ⟨h1, h2, h3, h4, h5, h6⟩ := h
    simp [promptBodyFor, EXTRACTION_PROMPTS, List.lookup,
      beq_eq_false_iff_ne.mpr h1, beq_eq_false_iff_ne.mpr h2,
      beq_eq_false_iff_ne.mpr h3, beq_eq_false_iff_ne.mpr h4,
      beq_eq_false_iff_ne.mpr h5, beq_eq_false_iff_ne.mpr h6]

/-- Witness for C5 at a registered and an unregistered type tag. -/
theorem extract_selects_prompt_by_lookup_with_default_witness :
    (("medical_lab", MEDICAL_LAB_BODY) ∈ EXTRACTION_PROMPTS ∧
      promptBodyFor "medical_lab" = MEDICAL_LAB_BODY) ∧
    ("utility_bill" ∉ EXTRACTION_PROMPTS.map Prod.fst ∧
      promptBodyFor "utility_bill" = GENERIC_BODY) := by
  have hmem : ("medical_lab", MEDICAL_LAB_BODY) ∈ EXTRACTION_PROMPTS := by
    simp [EXTRACTION_PROMPTS]
  have hnot : "utility_bill" ∉ EXTRACTION_PROMPTS.map Prod.fst := by
    simp [EXTRACTION_PROMPTS]
  exact ⟨⟨hmem, extract_selects_prompt_by_lookup_with_default.1 _ _ hmem⟩,
    ⟨hnot, extract_selects_prompt_by_lookup_with_default.2 _ hnot⟩⟩

theorem except_bind_ok {α β : Type} {x : Except String α} {f : α → Except String β}
    {b : β} (h : x >>= f = .ok b) : ∃ a, x = .ok a ∧ f a = .ok b := by
  cases x with
  | error e => simp [Bind.bind, Except.bind] at h
  | ok a =>
    refine ⟨a, rfl, ?_⟩
    simpa [Bind.bind, Except.bind] using h

/-- C2: `EntityExtractor.extract` never raises to its caller — at the
exception level it always returns `.ok` — and when both the primary and the
fallback extraction fail it returns the empty payload (zero entities). -/
theorem extract_never_raises_and_empty_on_double_failure :
    ∀ o title content doc_type,
      extractE o title content doc_type = .ok (extract o title content doc_type) ∧
      (∀ e1 e2, o.primary (primaryPrompt title content doc_type) = .error e1 →
        o.fallback (fallbackPrompt title content) >>= fallbackConvert = .error e2 →
        extract o title content doc_type = .obj []) := by
  intro o t c d
  constructor
  · unfold extractE extract tryCatch fallback_extractE fallback_extract
    cases o.primary (primaryPrompt t c d) with
    | ok v => rfl
    | error e =>
      cases o.fallback (fallbackPrompt t c) >>= fallbackConvert with
      | ok v => rfl
      | error e2 => rfl
  · intro e1 e2 h1 h2
    simp [extract, fallback_extract, h1, h2]

/-- Witness for C2: a concrete oracle failing on both calls yields the
empty payload. -/
theorem extract_never_raises_and_empty_on_double_failure_witness :
    extract ⟨fun _ => .error "rate limited", fun _ => .error "rate limited"⟩
      "Water bill" "scan content" "utility_bill" = .obj [] :=
  (extract_never_raises_and_empty_on_double_failure _ "Water bill" "scan content"
    "utility_bill").2 "rate limited" "rate limited" rfl rfl

theorem dropWhile_head_false (p : Char → Bool) (l : List Char) (c : Char)
    (h : (l.dropWhile p).head? = some c) : p c = false := by
  induction l with
  | nil => simp at h
  | cons x t ih =>
    rw [List.dropWhile_cons] at h
    by_cases hpx : p x = true
    · rw [if_pos hpx] at h
      exact ih h
    · rw [if_neg hpx] at h
      simp only [List.head?_cons, Option.some.injEq] at h
      subst h
      simpa using hpx

theorem dropWhile_self_of_head (p : Char → Bool) (l : List Char)
    (h : ∀ c, l.head? = some c → p c = false) : l.dropWhile p = l := by
  cases l with
  | nil => rfl
  | cons x t => rw [List.dropWhile_cons, h x rfl]; simp

theorem dropWhile_getLast? (p : Char → Bool) (l : List Char)
    (h : l.dropWhile p ≠ []) : (l.dropWhile p).getLast? = l.getLast? := by
  induction l with
  | nil => simp at h
  | cons x t ih =>
    rw [List.dropWhile_cons] at h ⊢
    by_cases hpx : p x = true
    · rw [if_pos hpx] at h ⊢
      have ht : t ≠ [] := by
        intro h0
        subst h0
        simp at h
      cases t with
      | nil => exact absurd rfl ht
      | cons b u => rw [List.getLast?_cons_cons]; exact ih h
    · rw [if_neg hpx]

theorem stripChars_idem (l : List Char) : stripChars (stripChars l) = stripChars l := by
  unfold stripChars
  have hhead : ∀ c, (((l.dropWhile Char.isWhitespace).reverse.dropWhile
      Char.isWhitespace).reverse).head? = some c → Char.isWhitespace c = false := by
    intro c hc
    rw [List.head?_reverse] at hc
    by_cases hx : (l.dropWhile Char.isWhitespace).reverse.dropWhile Char.isWhitespace = []
    · rw [hx] at hc; simp at hc
    · rw [dropWhile_getLast? _ _ hx, List.getLast?_reverse] at hc
      exact dropWhile_head_false _ _ _ hc
  rw [dropWhile_self_of_head _ _ hhead, List.reverse_reverse,
    dropWhile_self_of_head _ _ (fun c hc => dropWhile_head_false _ _ _ hc)]

theorem pyStrip_idem (s : String) : pyStrip (pyStrip s) = pyStrip s := by
  unfold pyStrip
  rw [show (String.mk (stripChars s.data)).data = stripChars s.data from rfl,
    stripChars_idem]

theorem length_filterMap_countP {α β : Type} (f : α → Option β) (l : List α) :
    (l.filterMap f).length = l.countP (fun x => (f x).isSome) := by
  induction l with
  | nil => rfl
  | cons x t ih =>
    rw [List.filterMap_cons, List.countP_cons]
    cases hfx : f x with
    | none => simp [hfx, ih]
    | some b => simp [hfx, ih]

theorem convPerson_isSome (j : Json) : (convPerson j).isSome = keptString j := by
  cases j <;> simp [convPerson, keptString]
  split <;> simp_all

theorem convOrg_isSome (j : Json) : (convOrg j).isSome = keptString j := by
  cases j <;> simp [convOrg, keptString]
  split <;> simp_all

theorem convDate_isSome (j : Json) : (convDate j).isSome = keptString j := by
  cases j <;> simp [convDate, keptString]
  split <;> simp_all

/-- C10: a successful fallback conversion produces `people` and
`organizations` entries only for raw entries that are strings with a
non-empty strip, each with the stripped name and fixed confidence `0.4`;
`dates` entries only for non-empty stripped strings; the list lengths
count exactly the kept raw entries (everything else is silently dropped);
and a missing raw `confidence` defaults to `0.3`. -/
theorem fallback_conversion_sanitizes_entries :
    ∀ result c, fallbackConvert result = .ok c →
      (∀ e ∈ peopleEntries c, ∃ s,
        e = .obj [("name", .str s), ("role", .str ""), ("confidence", .num (2/5))] ∧
        s ≠ "" ∧ pyStrip s = s) ∧
      (∀ e ∈ orgEntries c, ∃ s,
        e = .obj [("name", .str s), ("type", .str ""), ("confidence", .num (2/5))] ∧
        s ≠ "" ∧ pyStrip s = s) ∧
      (∀ e ∈ dateEntries c, ∃ s,
        e = .obj [("date", .str s), ("description", .str "")] ∧
        s ≠ "" ∧ pyStrip s = s) ∧
      (∀ ps, getIterable result "people" = .ok ps →
        (peopleEntries c).length = ps.countP keptString) ∧
      (∀ os, getIterable result "organizations" = .ok os →
        (orgEntries c).length = os.countP keptString) ∧
      (∀ ds, getIterable result "dates" = .ok ds →
        (dateEntries c).length = ds.countP keptString) ∧
      (result.lookupKey "confidence" = none →
        c.lookupKey "confidence" = some (.num (3/10))) := by
  intro result c h
  unfold fallbackConvert at h
  obtain ⟨sm, hsm, h⟩ := except_bind_ok h
  obtain ⟨cf, hcf, h⟩ := except_bind_ok h
  obtain ⟨ps, hps, h⟩ := except_bind_ok h
  obtain ⟨os, hos, h⟩ := except_bind_ok h
  obtain ⟨ds, hds, h⟩ := except_bind_ok h
  have hc : c = .obj
      [ ("people", .arr (ps.filterMap convPerson)),
        ("organizations", .arr (os.filterMap convOrg)),
        ("dates", .arr (ds.filterMap convDate)),
        ("summary", sm),
        ("confidence", cf),
        ("fallback_extraction", .bool true) ] := by
    simpa [Pure.pure, Except.pure] using h.symm
  subst hc
  have hpe : peopleEntries (Json.obj
      [ ("people", .arr (ps.filterMap convPerson)),
        ("organizations", .arr (os.filterMap convOrg)),
        ("dates", .arr (ds.filterMap convDate)),
        ("summary", sm), ("confidence", cf),
        ("fallback_extraction", .bool true) ]) = ps.filterMap convPerson := by
    simp [peopleEntries, Json.lookupKey, List.lookup]
  have hoe : orgEntries (Json.obj
      [ ("people", .arr (ps.filterMap convPerson)),
        ("organizations", .arr (os.filterMap convOrg)),
        ("dates", .arr (ds.filterMap convDate)),
        ("summary", sm), ("confidence", cf),
        ("fallback_extraction", .bool true) ]) = os.filterMap convOrg := by
    simp [orgEntries, Json.lookupKey, List.lookup]
  have hde : dateEntries (Json.obj
      [ ("people", .arr (ps.filterMap convPerson)),
        ("organizations", .arr (os.filterMap convOrg)),
        ("dates", .arr (ds.filterMap convDate)),
        ("summary", sm), ("confidence", cf),
        ("fallback_extraction", .bool true) ]) = ds.filterMap convDate := by
    simp [dateEntries, Json.lookupKey, List.lookup]
  refine ⟨?_, ?_, ?_, ?_, ?_, ?_, ?_⟩
  · intro e he
    rw [hpe] at he
    obtain ⟨j, _, hj⟩ := List.mem_filterMap.mp he
    cases j with
    | str s =>
      simp only [convPerson] at hj
      split at hj
      · rename_i hne
        obtain rfl := Option.some.inj hj
        exact ⟨pyStrip s, rfl, hne, pyStrip_idem s⟩
      · exact absurd hj (by simp)
    | null => exact absurd hj (by simp [convPerson])
    | bool b => exact absurd hj (by simp [convPerson])
    | num q => exact absurd hj (by simp [convPerson])
    | arr l => exact absurd hj (by simp [convPerson])
    | obj l => exact absurd hj (by simp [convPerson])
  · intro e he
    rw [hoe] at he
    obtain ⟨j, _, hj⟩ := List.mem_filterMap.mp he
    cases j with
    | str s =>
      simp only [convOrg] at hj
      split at hj
      · rename_i hne
        obtain rfl := Option.some.inj hj
        exact ⟨pyStrip s, rfl, hne, pyStrip_idem s⟩
      · exact absurd hj (by simp)
    | null => exact absurd hj (by simp [convOrg])
    | bool b => exact absurd hj (by simp [convOrg])
    | num q => exact absurd hj (by simp [convOrg])
    | arr l => exact absurd hj (by simp [convOrg])
    | obj l => exact absurd hj (by simp [convOrg])
  · intro e he
    rw [hde] at he
    obtain ⟨j, _, hj⟩ := List.mem_filterMap.mp he
    cases j with
    | str s =>
      simp only [convDate] at hj
      split at hj
      · rename_i hne
        obtain rfl := Option.some.inj hj
        exact ⟨pyStrip s, rfl, hne, pyStrip_idem s⟩
      · exact absurd hj (by simp)
    | null => exact absurd hj (by simp [convDate])
    | bool b => exact absurd hj (by simp [convDate])
    | num q => exact absurd hj (by simp [convDate])
    | arr l => exact absurd hj (by simp [convDate])
    | obj l => exact absurd hj (by simp [convDate])
  · intro ps' hps'
    rw [hps] at hps'
    obtain rfl := (Except.ok.inj hps')
    rw [hpe, length_filterMap_countP]
    exact List.countP_congr (fun x _ => by rw [convPerson_isSome x])
  · intro os' hos'
    rw [hos] at hos'
    obtain rfl := (Except.ok.inj hos')
    rw [hoe, length_filterMap_countP]
    exact List.countP_congr (fun x _ => by rw [convOrg_isSome x])
  · intro ds' hds'
    rw [hds] at hds'
    obtain rfl := (Except.ok.inj hds')
    rw [hde, length_filterMap_countP]
    exact List.countP_congr (fun x _ => by rw [convDate_isSome x])
  · intro hnone
    cases result with
    | obj L =>
      simp only [Json.lookupKey] at hnone
      simp only [Json.pyGet, hnone, Option.getD_none] at hcf
      obtain rfl := Except.ok.inj hcf
      simp [Json.lookupKey, List.lookup]
    | null => exact absurd hsm (by simp [Json.pyGet])
    | bool b => exact absurd hsm (by simp [Json.pyGet])
    | num q => exact absurd hsm (by simp [Json.pyGet])
    | str s => exact absurd hsm (by simp [Json.pyGet])
    | arr l => exact absurd hsm (by simp [Json.pyGet])

/-- Witness for C10: applying the conversion theorem at `W10result`. -/
theorem fallback_conversion_sanitizes_entries_witness :
    fallbackConvert W10result = .ok W10converted ∧
    (∀ e ∈ peopleEntries W10converted, ∃ s,
      e = .obj [("name", .str s), ("role", .str ""), ("confidence", .num (2/5))] ∧
      s ≠ "" ∧ pyStrip s = s) ∧
    W10converted.lookupKey "confidence" = some (.num (3/10)) :=
  ⟨rfl,
    (fallback_conversion_sanitizes_entries W10result W10converted rfl).1,
    (fallback_conversion_sanitizes_entries W10result W10converted rfl).2.2.2.2.2.2 rfl⟩

/-- C1: when the primary extraction fails, `extract` returns the converted
fallback payload — tagged `fallback_extraction=true`, carrying `people`,
`organizations`, `dates` and `summary`, with every per-entity confidence
fixed at 0.4 (below 0.8, the lowest per-entity confidence requested by any
primary template) — and, as long as the fallback response's self-reported
confidence stays within the 0.5 its prompt requests, with an overall
confidence below the 0.9 every primary template requests. -/
theorem extract_falls_back_with_lower_confidence :
    ∀ o title content doc_type err r conv,
      o.primary (primaryPrompt title content doc_type) = .error err →
      o.fallback (fallbackPrompt title content) = .ok r →
      fallbackConvert r = .ok conv →
      (∀ q, r.lookupKey "confidence" = some (.num q) → q ≤ 1/2) →
      extract o title content doc_type = conv ∧
      conv.lookupKey "fallback_extraction" = some (.bool true) ∧
      (∃ l, conv.lookupKey "people" = some (.arr l)) ∧
      (∃ l, conv.lookupKey "organizations" = some (.arr l)) ∧
      (∃ l, conv.lookupKey "dates" = some (.arr l)) ∧
      (∃ v, conv.lookupKey "summary" = some v) ∧
      (∀ ent ∈ peopleEntries conv ++ orgEntries conv,
        ent.lookupKey "confidence" = some (.num (2/5))) ∧
      (2/5 : ℚ) < 4/5 ∧
      (∀ q, conv.lookupKey "confidence" = some (.num q) → q < 9/10) := by
  intro o t c d err r conv hp hf hc hconf
  have hextract : extract o t c d = conv := by
    simp [extract, fallback_extract, hp, hf, hc, Bind.bind, Except.bind]
  have hinv := hc
  unfold fallbackConvert at hinv
  obtain ⟨sm, hsm, hinv⟩ := except_bind_ok hinv
  obtain ⟨cf, hcf, hinv⟩ := except_bind_ok hinv
  obtain ⟨ps, hps, hinv⟩ := except_bind_ok hinv
  obtain ⟨os, hos, hinv⟩ := except_bind_ok hinv
  obtain ⟨ds, hds, hinv⟩ := except_bind_ok hinv
  have hcv : conv = .obj
      [ ("people", .arr (ps.filterMap convPerson)),
        ("organizations", .arr (os.filterMap convOrg)),
        ("dates", .arr (ds.filterMap convDate)),
        ("summary", sm),
        ("confidence", cf),
        ("fallback_extraction", .bool true) ] := by
    simpa [Pure.pure, Except.pure] using hinv.symm
  subst hcv
  refine ⟨hextract, ?_, ?_, ?_, ?_, ?_, ?_, by norm_num, ?_⟩
  · simp [Json.lookupKey, List.lookup]
  · exact ⟨ps.filterMap convPerson, by simp [Json.lookupKey, List.lookup]⟩
  · exact ⟨os.filterMap convOrg, by simp [Json.lookupKey, List.lookup]⟩
  · exact ⟨ds.filterMap convDate, by simp [Json.lookupKey, List.lookup]⟩
  · exact ⟨sm, by simp [Json.lookupKey, List.lookup]⟩
  · intro ent hent
    rw [List.mem_append] at hent
    have hpe : peopleEntries (Json.obj
        [ ("people", .arr (ps.filterMap convPerson)),
          ("organizations", .arr (os.filterMap convOrg)),
          ("dates", .arr (ds.filterMap convDate)),
          ("summary", sm), ("confidence", cf),
          ("fallback_extraction", .bool true) ]) = ps.filterMap convPerson := by
      simp [peopleEntries, Json.lookupKey, List.lookup]
    have hoe : orgEntries (Json.obj
        [ ("people", .arr (ps.filterMap convPerson)),
          ("organizations", .arr (os.filterMap convOrg)),
          ("dates", .arr (ds.filterMap convDate)),
          ("summary", sm), ("confidence", cf),
          ("fallback_extraction", .bool true) ]) = os.filterMap convOrg := by
      simp [orgEntries, Json.lookupKey, List.lookup]
    rcases hent with hent | hent
    · rw [hpe] at hent
      obtain ⟨j, _, hj⟩ := List.mem_filterMap.mp hent
      cases j with
      | str s =>
        simp only [convPerson] at hj
        split at hj
        · obtain rfl := Option.some.inj hj
          simp [Json.lookupKey, List.lookup]
        · exact absurd hj (by simp)
      | null => exact absurd hj (by simp [convPerson])
      | bool b => exact absurd hj (by simp [convPerson])
      | num q => exact absurd hj (by simp [convPerson])
      | arr l => exact absurd hj (by simp [convPerson])
      | obj l => exact absurd hj (by simp [convPerson])
    · rw [hoe] at hent
      obtain ⟨j, _, hj⟩ := List.mem_filterMap.mp hent
      cases j with
      | str s =>
        simp only [convOrg] at hj
        split at hj
        · obtain rfl := Option.some.inj hj
          simp [Json.lookupKey, List.lookup]
        · exact absurd hj (by simp)
      | null => exact absurd hj (by simp [convOrg])
      | bool b => exact absurd hj (by simp [convOrg])
      | num q => exact absurd hj (by simp [convOrg])
      | arr l => exact absurd hj (by simp [convOrg])
      | obj l => exact absurd hj (by simp [convOrg])
  · have hck : (Json.obj
        [ ("people", .arr (ps.filterMap convPerson)),
          ("organizations", .arr (os.filterMap convOrg)),
          ("dates", .arr (ds.filterMap convDate)),
          ("summary", sm), ("confidence", cf),
          ("fallback_extraction", .bool true) ]).lookupKey "confidence" = some cf := by
      simp [Json.lookupKey, List.lookup]
    intro q hq
    rw [hck] at hq
    obtain rfl := Option.some.inj hq
    cases r with
    | obj L =>
      simp only [Json.pyGet] at hcf
      have hcf' := Except.ok.inj hcf
      cases hL : L.lookup "confidence" with
      | none =>
        rw [hL] at hcf'
        simp only [Option.getD_none] at hcf'
        injection hcf' with h310
        rw [← h310]
        norm_num
      | some v =>
        rw [hL] at hcf'
        simp only [Option.getD_some] at hcf'
        subst hcf'
        have := hconf q (by simp [Json.lookupKey, hL])
        linarith
    | null => exact absurd hsm (by simp [Json.pyGet])
    | bool b => exact absurd hsm (by simp [Json.pyGet])
    | num q' => exact absurd hsm (by simp [Json.pyGet])
    | str s => exact absurd hsm (by simp [Json.pyGet])
    | arr l => exact absurd hsm (by simp [Json.pyGet])

/-- Witness for C1: a concrete failing primary call and a concrete fallback
response with self-reported confidence 0.5. -/
theorem extract_falls_back_with_lower_confidence_witness :
    extract W1oracle "Lab report" "noisy scan" "medical_lab" = W1conv ∧
    W1conv.lookupKey "fallback_extraction" = some (.bool true) :=
  (fun h => ⟨h.1, h.2.1⟩)
    (extract_falls_back_with_lower_confidence W1oracle "Lab report" "noisy scan"
      "medical_lab" "malformed JSON" W1r W1conv rfl rfl rfl
      (by
        intro q hq
        rw [show W1r.lookupKey "confidence" = some (Json.num (1/2)) from rfl] at hq
        injection Option.some.inj hq with h
        exact le_of_eq h.symm))

/-- C7: while one mutating task is running, starting a second one fails
immediately with the HTTP 409 conflict signal, is not queued (the registry,
including the running task's record, is returned untouched), and the
dashboard maps the 409 error message to the `A task is already running`
toast. -/
theorem second_mutating_task_conflicts :
    ∀ r k, hasRunningTask r = true →
      startTask r k = (r, .error 409) ∧
      syncToast (.error (apiErrorMessage 409 "Conflict")) =
        ("A task is already running", "error") := by
  intro r k h
  exact ⟨by simp [startTask, h], rfl⟩

/-- Witness for C7: a registry with a running sync task rejects a reindex. -/
theorem second_mutating_task_conflicts_witness :
    hasRunningTask W7reg = true ∧ startTask W7reg .reindex = (W7reg, .error 409) :=
  ⟨rfl, (second_mutating_task_conflicts W7reg .reindex rfl).1⟩

theorem runStream_no_error (events : List QueryEvent) :
    ∀ acc, firstError events = none →
      runStream acc events = acc ++ concatStrings (chunkContents events) := by
  induction events with
  | nil =>
    intro acc _
    show acc = acc ++ ""
    refine String.ext ?_
    simp [String.data_append]
  | cons e rest ih =>
    intro acc h
    cases e with
    | status m =>
      rw [runStream]
      rw [firstError, List.findSome?_cons] at h
      exact ih acc h
    | answerChunk c =>
      rw [runStream]
      rw [firstError, List.findSome?_cons] at h
      rw [ih (acc ++ c) h]
      have : chunkContents (QueryEvent.answerChunk c :: rest) =
          c :: chunkContents rest := by
        simp [chunkContents]
      rw [this]
      show acc ++ c ++ concatStrings (chunkContents rest) =
        acc ++ (c ++ concatStrings (chunkContents rest))
      refine String.ext ?_
      simp [String.data_append]
    | complete s cch conf f =>
      rw [runStream]
      rw [firstError, List.findSome?_cons] at h
      exact ih acc h
    | error m =>
      rw [firstError, List.findSome?_cons] at h
      simp at h

theorem runStream_error (events : List QueryEvent) :
    ∀ acc m, firstError events = some m →
      runStream acc events = errorAnswer (if m = "" then "Stream error" else m) := by
  induction events with
  | nil => intro acc m h; simp [firstError] at h
  | cons e rest ih =>
    intro acc m h
    cases e with
    | status s =>
      rw [runStream]
      rw [firstError, List.findSome?_cons] at h
      exact ih acc m h
    | answerChunk c =>
      rw [runStream]
      rw [firstError, List.findSome?_cons] at h
      exact ih (acc ++ c) m h
    | complete s cch conf f =>
      rw [runStream]
      rw [firstError, List.findSome?_cons] at h
      exact ih acc m h
    | error m' =>
      rw [firstError, List.findSome?_cons] at h
      simp only [Option.some.injEq] at h
      subst h
      rfl

/-- C8: the assistant answer recorded by the query page equals the in-order
concatenation of the `answer_chunk` contents when the stream has no error
event, and an `error` event terminates processing with the error template
in place of an answer. -/
theorem query_stream_answer_is_chunk_concatenation :
    ∀ events : List QueryEvent,
      (firstError events = none →
        runStream "" events = concatStrings (chunkContents events)) ∧
      (∀ m, firstError events = some m →
        runStream "" events = errorAnswer (if m = "" then "Stream error" else m)) := by
  intro events
  constructor
  · intro h
    rw [runStream_no_error events "" h]
    refine String.ext ?_
    simp [String.data_append]
  · intro m h
    exact runStream_error events "" m h

/-- Witness for C8: a concrete error-free stream and a concrete stream with
an error event. -/
theorem query_stream_answer_is_chunk_concatenation_witness :
    (firstError [QueryEvent.status "searching", QueryEvent.answerChunk "Hello ",
        QueryEvent.answerChunk "world", QueryEvent.complete [] false none []] = none ∧
      runStream "" [QueryEvent.status "searching", QueryEvent.answerChunk "Hello ",
        QueryEvent.answerChunk "world", QueryEvent.complete [] false none []] =
        concatStrings (chunkContents [QueryEvent.status "searching",
          QueryEvent.answerChunk "Hello ", QueryEvent.answerChunk "world",
          QueryEvent.complete [] false none []])) ∧
    (firstError [QueryEvent.answerChunk "partial", QueryEvent.error "backend down"] =
        some "backend down" ∧
      runStream "" [QueryEvent.answerChunk "partial", QueryEvent.error "backend down"] =
        errorAnswer (if "backend down" = "" then "Stream error" else "backend down")) :=
  ⟨⟨rfl, (query_stream_answer_is_chunk_concatenation _).1 rfl⟩,
    ⟨rfl, (query_stream_answer_is_chunk_concatenation _).2 "backend down" rfl⟩⟩

theorem foldl_addNodeStep_spec (nodes : List RawNode) :
    ∀ (init : List String) (acc : List String × List GNode),
      acc.1 = init ++ acc.2.map GNode.id → acc.1.Nodup →
      (nodes.foldl addNodeStep acc).1 =
        init ++ (nodes.foldl addNodeStep acc).2.map GNode.id ∧
      (nodes.foldl addNodeStep acc).1.Nodup := by
  induction nodes with
  | nil => exact fun init acc h1 h2 => ⟨h1, h2⟩
  | cons nd rest ih =>
    intro init acc h1 h2
    rw [List.foldl_cons]
    by_cases hc : rawNodeId nd.props = "" ∨ rawNodeId nd.props ∈ acc.1
    · have hstep : addNodeStep acc nd = acc := by
        simp only [addNodeStep]
        rw [if_pos hc]
      rw [hstep]
      exact ih init acc h1 h2
    · have hstep : addNodeStep acc nd =
        (acc.1 ++ [rawNodeId nd.props],
          acc.2 ++ [mkGNode (rawNodeId nd.props) nd.props (labelOf nd.labels)]) := by
        simp only [addNodeStep]
        rw [if_neg hc]
      rw [hstep]
      obtain ⟨hne, hnm⟩ := not_or.mp hc
      refine ih init _ ?_ ?_
      · show acc.1 ++ [rawNodeId nd.props] = init ++ (acc.2 ++ [_]).map GNode.id
        rw [List.map_append, h1, List.append_assoc]
        rfl
      · show (acc.1 ++ [rawNodeId nd.props]).Nodup
        rw [List.nodup_append]
        exact ⟨h2, List.nodup_singleton _, by
          intro a ha hb
          rw [List.mem_singleton] at hb
          subst hb
          exact hnm ha⟩

theorem addNeighborsUpdate_inv (g : GraphData) (data : NeighborData)
    (h : GraphInv g) : GraphInv (addNeighborsUpdate g data) := by
  obtain ⟨hn, hl⟩ := h
  have hspec := foldl_addNodeStep_spec data.nodes (g.nodes.map GNode.id)
    (g.nodes.map GNode.id, []) (by simp) hn
  have hids : g.nodes.map GNode.id ++
      (data.nodes.foldl addNodeStep (g.nodes.map GNode.id, [])).2.map GNode.id =
      (data.nodes.foldl addNodeStep (g.nodes.map GNode.id, [])).1 := hspec.1.symm
  constructor
  · simp only [addNeighborsUpdate, addNeighborsFold, List.map_append]
    rw [hids]
    exact hspec.2
  · intro l hlmem
    simp only [addNeighborsUpdate, addNeighborsFold] at hlmem ⊢
    rw [List.mem_append] at hlmem
    rcases hlmem with hold | hnew
    · have hends := hl l hold
      rw [List.map_append, hids]
      constructor
      · rw [← hids]
        exact List.mem_append_left _ hends.1
      · rw [← hids]
        exact List.mem_append_left _ hends.2
    · obtain ⟨rel, _, hrel⟩ := List.mem_filterMap.mp hnew
      split at hrel
      · rename_i hcond
        obtain rfl := Option.some.inj hrel
        rw [List.map_append, hids]
        exact ⟨hcond.2.2.1, hcond.2.2.2⟩
      · exact absurd hrel (by simp)

theorem addNodeFromSearchUpdate_inv (g : GraphData) (labels : List String)
    (p : RawProps) (data : NeighborData) (h : GraphInv g) :
    GraphInv (addNodeFromSearchUpdate g labels p data) := by
  unfold addNodeFromSearchUpdate
  by_cases hid : jsOr p.uuid ("doc-" ++ p.paperless_id) = ""
  · rw [if_pos hid]
    exact h
  · rw [if_neg hid]
    apply addNeighborsUpdate_inv
    by_cases hex : (g.nodes.find? fun n =>
        n.id == jsOr p.uuid ("doc-" ++ p.paperless_id)).isSome
    · rw [if_pos hex]
      exact h
    · rw [if_neg hex]
      have hnone := Option.not_isSome_iff_eq_none.mp hex
      have hall := List.find?_eq_none.mp hnone
      constructor
      · simp only [List.map_append]
        rw [List.nodup_append]
        refine ⟨h.1, by simp, ?_⟩
        intro a ha hb
        simp only [mkGNode, List.map_cons, List.map_nil, List.mem_singleton] at hb
        subst hb
        obtain ⟨n, hnmem, hnid⟩ := List.mem_map.mp ha
        have := hall n hnmem
        rw [hnid] at this
        simp at this
      · intro l hlmem
        have hends := h.2 l hlmem
        constructor
        · rw [List.map_append]
          exact List.mem_append_left _ hends.1
        · rw [List.map_append]
          exact List.mem_append_left _ hends.2

theorem filteredData_links_closed (g : GraphData) (hidden : List String) :
    ∀ l ∈ (filteredData g hidden).links,
      l.source ∈ (filteredData g hidden).nodes.map GNode.id ∧
      l.target ∈ (filteredData g hidden).nodes.map GNode.id := by
  intro l hlmem
  simp only [filteredData, List.mem_filter] at hlmem
  obtain ⟨hmem, hcond⟩ := hlmem
  rw [Bool.and_eq_true] at hcond
  obtain ⟨hs, ht⟩ := hcond
  constructor
  · obtain ⟨n, hfind⟩ := Option.isSome_iff_exists.mp hs
    have hn_mem := List.mem_of_find?_eq_some hfind
    have hn_prop := List.find?_some hfind
    rw [Bool.and_eq_true] at hn_prop
    obtain ⟨hid, hhid⟩ := hn_prop
    have hnf : n ∈ (filteredData g hidden).nodes := by
      simp only [filteredData, List.mem_filter]
      exact ⟨hn_mem, hhid⟩
    rw [← eq_of_beq hid]
    exact List.mem_map_of_mem GNode.id hnf
  · obtain ⟨n, hfind⟩ := Option.isSome_iff_exists.mp ht
    have hn_mem := List.mem_of_find?_eq_some hfind
    have hn_prop := List.find?_some hfind
    rw [Bool.and_eq_true] at hn_prop
    obtain ⟨hid, hhid⟩ := hn_prop
    have hnf : n ∈ (filteredData g hidden).nodes := by
      simp only [filteredData, List.mem_filter]
      exact ⟨hn_mem, hhid⟩
    rw [← eq_of_beq hid]
    exact List.mem_map_of_mem GNode.id hnf

/-- C9: both graph-growing operations of the graph explorer preserve
pairwise-distinct node ids and the presence of every link's endpoints
among the state's nodes, and the filtered view only keeps links whose
endpoints are ids of non-hidden rendered nodes. -/
theorem graph_growth_preserves_id_and_endpoint_invariants :
    ∀ (g : GraphData) (data : NeighborData) (labels : List String)
      (p : RawProps) (hidden : List String),
      (GraphInv g → GraphInv (addNeighborsUpdate g data)) ∧
      (GraphInv g → GraphInv (addNodeFromSearchUpdate g labels p data)) ∧
      (∀ l ∈ (filteredData g hidden).links,
        l.source ∈ (filteredData g hidden).nodes.map GNode.id ∧
        l.target ∈ (filteredData g hidden).nodes.map GNode.id) :=
  fun g data labels p hidden =>
    ⟨addNeighborsUpdate_inv g data, addNodeFromSearchUpdate_inv g labels p data,
      filteredData_links_closed g hidden⟩

/-- Witness for C9: growing a concrete one-node graph by a concrete
neighbors payload preserves the invariant. -/
theorem graph_growth_preserves_id_and_endpoint_invariants_witness :
    GraphInv W9g ∧ GraphInv (addNeighborsUpdate W9g W9data) :=
  ⟨⟨by simp [W9g], by simp [W9g]⟩,
    (graph_growth_preserves_id_and_endpoint_invariants W9g W9data [] ⟨"", "", "", ""⟩ []).1
      ⟨by simp [W9g], by simp [W9g]⟩⟩

theorem le_maxScore {l : List ℚ} {x : ℚ} (h : x ∈ l) : x ≤ maxScore l := by
  induction l with
  | nil => simp at h
  | cons y t ih =>
    rw [List.mem_cons] at h
    show x ≤ max y (maxScore t)
    rcases h with rfl | h
    · exact le_max_left _ _
    · exact le_trans (ih h) (le_max_right _ _)

theorem maxScore_nonneg (l : List ℚ) : 0 ≤ maxScore l := by
  induction l with
  | nil => exact le_refl 0
  | cons y t ih => exact le_trans ih (le_max_right _ _)

theorem maxScore_le {l : List ℚ} {m : ℚ} (h0 : 0 ≤ m) (h : ∀ x ∈ l, x ≤ m) :
    maxScore l ≤ m := by
  induction l with
  | nil => exact h0
  | cons y t ih =>
    show max y (maxScore t) ≤ m
    exact max_le (h y (by simp)) (ih fun x hx => h x (by simp [hx]))

theorem maxScore_lt {l : List ℚ} {m : ℚ} (h0 : 0 < m) (h : ∀ x ∈ l, x < m) :
    maxScore l < m := by
  induction l with
  | nil => exact h0
  | cons y t ih =>
    show max y (maxScore t) < m
    exact max_lt (h y (by simp)) (ih fun x hx => h x (by simp [hx]))

theorem fuzzyScore_comm (cfg : ResolverCfg)
    (hsim : ∀ a b, cfg.sim a b = cfg.sim b a) (e1 e2 : Entity) :
    fuzzyScore cfg e1 e2 = fuzzyScore cfg e2 e1 := by
  have key : ∀ f g : Entity, fuzzyScore cfg f g ≤ fuzzyScore cfg g f := by
    intro f g
    apply maxScore_le (maxScore_nonneg _)
    intro x hx
    obtain ⟨⟨a, b⟩, hab, rfl⟩ := List.mem_map.mp hx
    rw [List.pair_mem_product] at hab
    rw [hsim a b]
    exact le_maxScore (List.mem_map.mpr ⟨(b, a), List.pair_mem_product.mpr ⟨hab.2, hab.1⟩, rfl⟩)
  exact le_antisymm (key e1 e2) (key e2 e1)

theorem linked_comm (cfg : ResolverCfg)
    (hsim : ∀ a b, cfg.sim a b = cfg.sim b a)
    (hemb : ∀ i j, cfg.embSim i j = cfg.embSim j i) (e1 e2 : Entity) :
    linked cfg e1 e2 = linked cfg e2 e1 := by
  unfold linked
  rw [fuzzyScore_comm cfg hsim e1 e2, hemb e1.emb e2.emb]
  by_cases hl : e1.label = e2.label
  · rw [hl]
  · rw [beq_eq_false_iff_ne.mpr hl, beq_eq_false_iff_ne.mpr (Ne.symm hl)]

theorem label_eq_of_linked {cfg : ResolverCfg} {e1 e2 : Entity}
    (h : linked cfg e1 e2 = true) : e1.label = e2.label := by
  unfold linked at h
  rw [Bool.and_eq_true] at h
  exact eq_of_beq h.1

theorem of_linked_false {cfg : ResolverCfg} {e1 e2 : Entity}
    (hlab : e1.label = e2.label) (h : linked cfg e1 e2 = false) :
    fuzzyScore cfg e1 e2 < cfg.fuzzyThreshold ∧
    cfg.embSim e1.emb e2.emb < cfg.embThreshold := by
  unfold linked at h
  rw [hlab] at h
  simp only [beq_self_eq_true, Bool.true_and, Bool.or_eq_false_iff,
    Bool.and_eq_false_iff, decide_eq_false_iff_not, not_le, not_lt] at h
  obtain ⟨h1, h2⟩ := h
  refine ⟨h1, ?_⟩
  rcases h2 with h2 | h2
  · exact absurd h1 (not_lt.mpr h2)
  · exact h2

theorem clustersOf_inv (link : Entity → Entity → Bool)
    (hsym : ∀ a b, link a b = link b a)
    (hlab : ∀ a b, link a b = true → a.label = b.label) (es : List Entity) :
    (∀ c ∈ clustersOf link es, c ≠ []) ∧
    (∀ c ∈ clustersOf link es, ∀ x ∈ c, ∀ y ∈ c, x.label = y.label) ∧
    (clustersOf link es).Pairwise
      (fun c1 c2 => ∀ x ∈ c1, ∀ y ∈ c2, link x y = false) := by
  induction es with
  | nil => exact ⟨by simp [clustersOf], by simp [clustersOf], by simp [clustersOf]⟩
  | cons e t ih =>
    obtain ⟨ih1, ih2, ih3⟩ := ih
    have hRsymm : ∀ c1 c2 : List Entity, (∀ x ∈ c1, ∀ y ∈ c2, link x y = false) →
        (∀ x ∈ c2, ∀ y ∈ c1, link x y = false) := by
      intro c1 c2 h x hx y hy
      rw [hsym]
      exact h y hy x hx
    have hcross : ∀ c1 ∈ clustersOf link t, ∀ c2 ∈ clustersOf link t, c1 ≠ c2 →
        ∀ x ∈ c1, ∀ y ∈ c2, link x y = false := by
      intro c1 h1 c2 h2 hne
      have hsymR : Symmetric (fun c1 c2 : List Entity =>
          ∀ x ∈ c1, ∀ y ∈ c2, link x y = false) :=
        fun c1 c2 h => hRsymm c1 c2 h
      exact List.Pairwise.forall hsymR ih3 h1 h2 hne
    rw [show clustersOf link (e :: t) = addToClusters link e (clustersOf link t)
      from rfl]
    unfold addToClusters
    set touched := (clustersOf link t).filter (fun c => c.any fun x => link e x)
      with htouched
    set untouched := (clustersOf link t).filter (fun c => !(c.any fun x => link e x))
      with huntouched
    have htmem : ∀ c ∈ touched, c ∈ clustersOf link t ∧ (c.any fun x => link e x) = true := by
      intro c hc
      rw [htouched, List.mem_filter] at hc
      exact hc
    have humem : ∀ c ∈ untouched,
        c ∈ clustersOf link t ∧ (c.any fun x => link e x) = false := by
      intro c hc
      rw [huntouched, List.mem_filter] at hc
      exact ⟨hc.1, by simpa using hc.2⟩
    have hheadlab : ∀ x ∈ e :: touched.flatten, x.label = e.label := by
      intro x hx
      rw [List.mem_cons] at hx
      rcases hx with rfl | hx
      · rfl
      · obtain ⟨c, hc, hxc⟩ := List.mem_flatten.mp hx
        obtain ⟨hcmem, hany⟩ := htmem c hc
        obtain ⟨x0, hx0, hlx0⟩ := List.any_eq_true.mp hany
        have h1 : e.label = x0.label := hlab _ _ hlx0
        have h2 : x.label = x0.label := ih2 c hcmem x hxc x0 hx0
        rw [h2, h1]
    refine ⟨?_, ?_, ?_⟩
    · intro c hc
      rw [List.mem_cons] at hc
      rcases hc with rfl | hc
      · simp
      · exact ih1 c (humem c hc).1
    · intro c hc x hx y hy
      rw [List.mem_cons] at hc
      rcases hc with rfl | hc
      · rw [hheadlab x hx, hheadlab y hy]
      · exact ih2 c (humem c hc).1 x hx y hy
    · rw [List.pairwise_cons]
      constructor
      · intro c2 hc2 x hx y hy
        obtain ⟨hc2mem, hc2any⟩ := humem c2 hc2
        rw [List.mem_cons] at hx
        rcases hx with rfl | hx
        · simpa using List.any_eq_false.mp hc2any y hy
        · obtain ⟨c1, hc1, hxc1⟩ := List.mem_flatten.mp hx
          obtain ⟨hc1mem, hc1any⟩ := htmem c1 hc1
          have hne : c1 ≠ c2 := by
            intro heq
            rw [heq, hc2any] at hc1any
            exact Bool.false_ne_true hc1any
          exact hcross c1 hc1mem c2 hc2mem hne x hxc1 y hy
      · exact List.Pairwise.sublist (List.filter_sublist _) ih3

theorem canonicalOf_mem : ∀ (c : List Entity) (e : Entity),
    canonicalOf c = some e → e ∈ c := by
  have hfold : ∀ (t : List Entity) (a : Entity),
      (t.foldl (fun acc x => if preferred x acc then x else acc) a) ∈ a :: t := by
    intro t
    induction t with
    | nil => intro a; simp
    | cons x t' ih =>
      intro a
      rw [List.foldl_cons]
      have := ih (if preferred x a then x else a)
      rw [List.mem_cons] at this
      rcases this with heq | hmem
      · rw [heq]
        by_cases hp : preferred x a
        · rw [if_pos hp]; simp
        · rw [if_neg hp]; simp
      · simp [hmem]
  intro c e hc
  cases c with
  | nil => simp [canonicalOf] at hc
  | cons a t =>
    simp only [canonicalOf, Option.some.injEq] at hc
    rw [← hc]
    exact hfold t a

theorem merged_unlinked (cfg : ResolverCfg) (hθ : 0 < cfg.fuzzyThreshold)
    (c1 c2 : List Entity) (m1 m2 : Entity)
    (hlab1 : ∀ x ∈ c1, ∀ y ∈ c1, x.label = y.label)
    (hlab2 : ∀ x ∈ c2, ∀ y ∈ c2, x.label = y.label)
    (hR : ∀ x ∈ c1, ∀ y ∈ c2, linked cfg x y = false)
    (h1 : mergeCluster c1 = some m1) (h2 : mergeCluster c2 = some m2) :
    linked cfg m1 m2 = false := by
  unfold mergeCluster at h1 h2
  obtain ⟨can1, hcan1, hm1⟩ := Option.map_eq_some'.mp h1
  obtain ⟨can2, hcan2, hm2⟩ := Option.map_eq_some'.mp h2
  have hcan1mem := canonicalOf_mem c1 can1 hcan1
  have hcan2mem := canonicalOf_mem c2 can2 hcan2
  have hm1lab : m1.label = can1.label := by rw [← hm1]
  have hm2lab : m2.label = can2.label := by rw [← hm2]
  have hm1names : m1.names = (c1.map Entity.names).flatten := by rw [← hm1]
  have hm2names : m2.names = (c2.map Entity.names).flatten := by rw [← hm2]
  have hm1emb : m1.emb = can1.emb := by rw [← hm1]
  have hm2emb : m2.emb = can2.emb := by rw [← hm2]
  by_cases hl : m1.label = m2.label
  · have hmemlab : ∀ x ∈ c1, ∀ y ∈ c2, x.label = y.label := by
      intro x hx y hy
      have e1 : x.label = can1.label := hlab1 x hx can1 hcan1mem
      have e2 : y.label = can2.label := hlab2 y hy can2 hcan2mem
      rw [e1, e2, ← hm1lab, ← hm2lab, hl]
    have hf : fuzzyScore cfg m1 m2 < cfg.fuzzyThreshold := by
      apply maxScore_lt hθ
      intro v hv
      obtain ⟨⟨a, b⟩, hab, rfl⟩ := List.mem_map.mp hv
      rw [List.pair_mem_product] at hab
      obtain ⟨ha, hb⟩ := hab
      rw [hm1names] at ha
      rw [hm2names] at hb
      obtain ⟨la, hla, halA⟩ := List.mem_flatten.mp ha
      obtain ⟨x1, hx1, rfl⟩ := List.mem_map.mp hla
      obtain ⟨lb, hlb, hblB⟩ := List.mem_flatten.mp hb
      obtain ⟨y1, hy1, rfl⟩ := List.mem_map.mp hlb
      have hxy := hR x1 hx1 y1 hy1
      have hfxy := (of_linked_false (hmemlab x1 hx1 y1 hy1) hxy).1
      calc cfg.sim a b
          ≤ fuzzyScore cfg x1 y1 := le_maxScore
            (List.mem_map.mpr ⟨(a, b), List.pair_mem_product.mpr ⟨halA, hblB⟩, rfl⟩)
        _ < cfg.fuzzyThreshold := hfxy
    have hs : cfg.embSim m1.emb m2.emb < cfg.embThreshold := by
      rw [hm1emb, hm2emb]
      have hcc := hR can1 hcan1mem can2 hcan2mem
      exact (of_linked_false (hmemlab can1 hcan1mem can2 hcan2mem) hcc).2
    have d1 : decide (cfg.fuzzyThreshold ≤ fuzzyScore cfg m1 m2) = false :=
      decide_eq_false (not_le.mpr hf)
    have d3 : decide (cfg.embThreshold ≤ cfg.embSim m1.emb m2.emb) = false :=
      decide_eq_false (not_le.mpr hs)
    simp [linked, d1, d3]
  · simp [linked, beq_eq_false_iff_ne.mpr hl]

theorem mergeCluster_singleton (e : Entity) : mergeCluster [e] = some e := by
  simp only [mergeCluster, canonicalOf, List.foldl_nil, Option.map_some',
    List.map_cons, List.map_nil, List.flatten_cons, List.flatten_nil,
    List.append_nil, Option.some.injEq]

theorem clustersOf_of_pairwise_unlinked (link : Entity → Entity → Bool)
    (es : List Entity)
    (h : es.Pairwise (fun a b => link a b = false ∧ link b a = false)) :
    clustersOf link es = es.map (fun e => [e]) := by
  induction es with
  | nil => rfl
  | cons e t ih =>
    rw [List.pairwise_cons] at h
    obtain ⟨hhd, htl⟩ := h
    show addToClusters link e (clustersOf link t) = [e] :: t.map (fun e => [e])
    rw [ih htl]
    unfold addToClusters
    have hfil1 : (t.map fun e => [e]).filter (fun c => c.any fun x => link e x) = [] := by
      rw [List.filter_eq_nil_iff]
      intro c hc
      obtain ⟨x, hx, rfl⟩ := List.mem_map.mp hc
      simp only [List.any_cons, List.any_nil, Bool.or_false]
      rw [(hhd x hx).1]
      simp
    have hfil2 : (t.map fun e => [e]).filter (fun c => !(c.any fun x => link e x)) =
        t.map fun e => [e] := by
      rw [List.filter_eq_self]
      intro c hc
      obtain ⟨x, hx, rfl⟩ := List.mem_map.mp hc
      simp only [List.any_cons, List.any_nil, Bool.or_false]
      rw [(hhd x hx).1]
      rfl
    rw [hfil1, hfil2]
    rfl

theorem resolve_of_singleton_clusters (cfg : ResolverCfg) (es : List Entity)
    (h : clustersOf (linked cfg) es = es.map (fun e => [e])) :
    resolve cfg es = es := by
  unfold resolve
  rw [h, List.filterMap_map]
  have : (mergeCluster ∘ fun e => [e]) = some := by
    funext e
    exact mergeCluster_singleton e
  rw [this, List.filterMap_some]

/-- C6 (modelled from the spec): entity resolution is idempotent — on the
output of a resolution pass every cluster is a singleton (merged entities
are never linked with each other again, so they are neither re-compared
into a merge nor re-split), and running resolution a second time returns
the resolved entity list unchanged. Requires the similarity functions to
be symmetric and the fuzzy threshold to be positive. -/
theorem resolution_is_idempotent :
    ∀ (cfg : ResolverCfg) (es : List Entity),
      (∀ a b, cfg.sim a b = cfg.sim b a) →
      (∀ i j, cfg.embSim i j = cfg.embSim j i) →
      0 < cfg.fuzzyThreshold →
      clustersOf (linked cfg) (resolve cfg es) =
        (resolve cfg es).map (fun e => [e]) ∧
      resolve cfg (resolve cfg es) = resolve cfg es := by
  intro cfg es hsim hemb hθ
  have hsym : ∀ a b, linked cfg a b = linked cfg b a := linked_comm cfg hsim hemb
  have hlab : ∀ a b : Entity, linked cfg a b = true → a.label = b.label :=
    fun a b h => label_eq_of_linked h
  obtain ⟨hne, hlabu, hpw⟩ := clustersOf_inv (linked cfg) hsym hlab es
  have hmerged : (resolve cfg es).Pairwise
      (fun a b => linked cfg a b = false ∧ linked cfg b a = false) := by
    unfold resolve
    rw [List.pairwise_filterMap]
    refine List.Pairwise.imp_of_mem ?_ hpw
    intro c1 c2 hc1 hc2 hR m1 hm1 m2 hm2
    have hu1 := merged_unlinked cfg hθ c1 c2 m1 m2 (hlabu c1 hc1) (hlabu c2 hc2)
      hR hm1 hm2
    have hR2 : ∀ x ∈ c2, ∀ y ∈ c1, linked cfg x y = false := by
      intro x hx y hy
      rw [hsym]
      exact hR y hy x hx
    have hu2 := merged_unlinked cfg hθ c2 c1 m2 m1 (hlabu c2 hc2) (hlabu c1 hc1)
      hR2 hm2 hm1
    exact ⟨hu1, hu2⟩
  have hclusters := clustersOf_of_pairwise_unlinked (linked cfg) (resolve cfg es) hmerged
  exact ⟨hclusters, resolve_of_singleton_clusters cfg (resolve cfg es) hclusters⟩

/-- Witness for C6: a concrete configuration with symmetric similarity
functions and the default thresholds, on three concrete entities. -/
theorem resolution_is_idempotent_witness :
    resolve W6cfg (resolve W6cfg W6es) = resolve W6cfg W6es :=
  (resolution_is_idempotent W6cfg W6es (fun _ _ => rfl) (fun _ _ => rfl)
    (by norm_num [W6cfg])).2

end PKG
